import Mathlib

/-!
Verification of the Operation model from unify_api_v1/models/operation.py.

The embedding models Python objects explicitly: operation objects live on a
heap (a list of field records) and are referred to by index, so statements
about non-mutation of a receiver are meaningful.  The network and the wall
clock are environments: `server n` gives the decoded body of the n-th GET
issued by `poll` during a run, and `times i` gives the value of
`now() - started` at the i-th evaluation of the while-loop guard in `wait`.
The loop in `wait` need not terminate, so it is modelled with explicit
fuel; running out of fuel is the `fuelOut` outcome.
-/

namespace UnifyOperation

/-- Decoded `status` field of an operation; `state` holds the symbolic name
that the proto enumeration lookup `OperationStateProto.Name` produces from
the raw status. -/
structure OpStatus where
  state : String
deriving Repr, DecidableEq, Inhabited

/-- The observable fields of an `Operation` object. -/
structure OpFields where
  type : String
  description : String
  status : OpStatus
  api_path : Option String
deriving Repr, DecidableEq, Inhabited

/-- Modelled from the spec: the schema decoding layer (spec section 6) and
`BaseResource` are collaborators outside the source file.  A response body
is modelled by its decoded content; `derived_api_path` is the handle the
decoding layer derives from the body alone, used when no explicit
`api_path` is supplied to `from_json`. -/
structure ResponseBody where
  type : String
  description : String
  status : OpStatus
  derived_api_path : Option String
deriving Repr, DecidableEq, Inhabited

/-- Modelled from the spec: `Operation.from_json(client, resource_json,
api_path=None)` delegates to the base-resource factory, which decodes the
body and records the given `api_path`, falling back to what the decoding
layer derives from the body when the argument is `None`. -/
def from_json (body : ResponseBody) (api_path : Option String) : OpFields :=
  { type := body.type
    description := body.description
    status := body.status
    api_path := match api_path with
      | some p => some p
      | none => body.derived_api_path }

/-- The derived `state` accessor: `OperationStateProto.Name(self.status.state)`. -/
def Operation.state (f : OpFields) : String := f.status.state

/-- `succeeded`: `return self.state == "SUCCEEDED"`. -/
def Operation.succeeded (f : OpFields) : Bool := Operation.state f == "SUCCEEDED"

/-- The two unresolved state names tested by the first branch of the `wait`
loop: `if op.state in ["PENDING", "RUNNING"]`. -/
def unresolvedStates : List String := ["PENDING", "RUNNING"]

/-- The three terminal state names tested by the second branch of the `wait`
loop: `elif op.state in ["CANCELED", "SUCCEEDED", "FAILED"]`. -/
def terminalStates : List String := ["CANCELED", "SUCCEEDED", "FAILED"]

/-- A heap of operation objects; an operation reference is an index into it. -/
abbrev Heap := List OpFields

/-- State of the operation object a reference points to. -/
def stateAt (h : Heap) (r : Nat) : String := Operation.state (h.getD r default)

/-- `poll`: issues one GET at the stored path and decodes the response into
a fresh object, `Operation.from_json(self.client, op_json)`, with the
`api_path` argument left at its default `None`.  The decoded `body` is
supplied by the environment.  Returns the extended heap and the reference
to the new object; the receiver `r` is only read, never written. -/
def Operation.poll (h : Heap) (r : Nat) (body : ResponseBody) : Heap × Nat :=
  (h ++ [from_json body none], h.length)

/-- Outcome of a `wait` call: `returned r` is a normal `return op` of the
object `r`; `timedOut t` is the `TimeoutError` raised after the loop,
carrying the value interpolated into its message (the configured
`timeout_seconds`); `fuelOut r` marks that the modelling fuel ran out with
the loop still going (the run diverges past this bound). -/
inductive WaitOutcome where
  | returned (r : Nat)
  | timedOut (timeout_seconds : Option ℚ)
  | fuelOut (r : Nat)
deriving Repr, DecidableEq

/-- A finished `wait` run: its outcome, the final heap, and how many
`sleep` calls and `poll` calls were made. -/
structure WaitRun where
  outcome : WaitOutcome
  heap : Heap
  sleeps : Nat
  polls : Nat
deriving Repr, DecidableEq

/-- The loop guard `timeout_seconds is None or now() - started <
timeout_seconds`, with `times i` the value of `now() - started` at the
i-th evaluation. -/
def guardHolds (times : Nat → ℚ) (timeout_seconds : Option ℚ) (i : Nat) : Bool :=
  match timeout_seconds with
  | none => true
  | some t => decide (times i < t)

/-- The `wait` loop, with explicit fuel.  The `polls` counter doubles as
the loop iteration counter, since every completed iteration ends in
`op = op.poll()`.  An iteration first evaluates the guard; then, if the
current state is unresolved, sleeps; else, if it is terminal, returns;
otherwise neither; and finally polls. -/
def Operation.waitAux (server : Nat → ResponseBody) (times : Nat → ℚ)
    (timeout_seconds : Option ℚ) :
    Nat → Heap → Nat → Nat → Nat → WaitRun
  | 0, h, r, sleeps, polls => ⟨.fuelOut r, h, sleeps, polls⟩
  | fuel + 1, h, r, sleeps, polls =>
    if guardHolds times timeout_seconds polls then
      if stateAt h r ∈ unresolvedStates then
        Operation.waitAux server times timeout_seconds fuel
          (Operation.poll h r (server polls)).1 (Operation.poll h r (server polls)).2
          (sleeps + 1) (polls + 1)
      else if stateAt h r ∈ terminalStates then
        ⟨.returned r, h, sleeps, polls⟩
      else
        Operation.waitAux server times timeout_seconds fuel
          (Operation.poll h r (server polls)).1 (Operation.poll h r (server polls)).2
          sleeps (polls + 1)
    else
      ⟨.timedOut timeout_seconds, h, sleeps, polls⟩

/-- `wait(poll_interval_seconds=3, timeout_seconds=None)` on the receiver
`r`.  The `poll_interval_seconds` argument only affects the wall clock,
which the `times` environment already records, so it is threaded for
signature fidelity only. -/
def Operation.wait (h : Heap) (r : Nat) (server : Nat → ResponseBody)
    (times : Nat → ℚ) (poll_interval_seconds : ℚ) (timeout_seconds : Option ℚ)
    (fuel : Nat) : WaitRun :=
  Operation.waitAux server times timeout_seconds fuel h r 0 0

/-- `apply_options(asynchronous=False, **options)`: if `asynchronous`,
`return self`; otherwise `return self.wait(**options)`. -/
def Operation.apply_options (h : Heap) (r : Nat) (asynchronous : Bool)
    (server : Nat → ResponseBody) (times : Nat → ℚ)
    (poll_interval_seconds : ℚ) (timeout_seconds : Option ℚ)
    (fuel : Nat) : WaitRun :=
  if asynchronous then ⟨.returned r, h, 0, 0⟩
  else Operation.wait h r server times poll_interval_seconds timeout_seconds fuel

/-- The sequence of snapshots the `wait` loop sees: index 0 is the initial
receiver, and index `k + 1` is what the k-th `poll` issued by the loop
(counting absolutely from `base`) decodes. -/
def snapFields (f0 : OpFields) (server : Nat → ResponseBody) (base : Nat) :
    Nat → OpFields
  | 0 => f0
  | k + 1 => from_json (server (base + k)) none

/-- The event that makes the `wait` loop raise TimeoutError: at some guard
evaluation the elapsed clock is no longer below the timeout, and no earlier
iteration had either run out of time or observed a terminal snapshot. -/
def timeoutHit (server : Nat → ResponseBody) (times : Nat → ℚ)
    (timeout : Option ℚ) (f0 : OpFields) (base : Nat) (k : Nat) : Prop :=
  guardHolds times timeout (base + k) = false
    ∧ ∀ j < k, guardHolds times timeout (base + j) = true
        ∧ Operation.state (snapFields f0 server base j) ∉ terminalStates

/-- Concrete fixtures used to evaluate the definitions on closed inputs. -/
def opPending : OpFields :=
  ⟨"SPARK", "a job", ⟨"PENDING"⟩, some "/api/versioned/v1/operations/1"⟩

def opSucceeded : OpFields :=
  ⟨"SPARK", "a job", ⟨"SUCCEEDED"⟩, some "/api/versioned/v1/operations/1"⟩

def opBogus : OpFields :=
  ⟨"SPARK", "a job", ⟨"BOGUS"⟩, some "/api/versioned/v1/operations/1"⟩

def bodyRunning : ResponseBody :=
  ⟨"SPARK", "a job", ⟨"RUNNING"⟩, some "/api/versioned/v1/operations/2"⟩

def bodySucceeded : ResponseBody :=
  ⟨"SPARK", "a job", ⟨"SUCCEEDED"⟩, some "/api/versioned/v1/operations/2"⟩

def bodyPending : ResponseBody :=
  ⟨"SPARK", "a job", ⟨"PENDING"⟩, some "/api/versioned/v1/operations/2"⟩

def bodyBogus : ResponseBody :=
  ⟨"SPARK", "a job", ⟨"BOGUS"⟩, some "/api/versioned/v1/operations/2"⟩

/-- A server that reports RUNNING on the first poll and SUCCEEDED after. -/
def serverRunThenSucceed : Nat → ResponseBody :=
  fun n => if n = 0 then bodyRunning else bodySucceeded

def serverPending : Nat → ResponseBody := fun _ => bodyPending

def serverBogus : Nat → ResponseBody := fun _ => bodyBogus

def serverSucceeded : Nat → ResponseBody := fun _ => bodySucceeded

def clockZero : Nat → ℚ := fun _ => 0

def clockFive : Nat → ℚ := fun _ => 5

def clockSeven : Nat → ℚ := fun _ => 7

lemma getD_concat_self (h : Heap) (f : OpFields) :
    (h ++ [f]).getD h.length default = f := by
  rw [List.getD_append_right h [f] default h.length (Nat.le_refl _)]
  simp

lemma stateAt_concat (h : Heap) (f : OpFields) :
    stateAt (h ++ [f]) h.length = Operation.state f := by
  rw [stateAt, getD_concat_self]

lemma terminal_not_unresolved {st : String} (hst : st ∈ terminalStates) :
    st ∉ unresolvedStates := by
  fin_cases hst <;> decide

lemma snapFields_shift (f0 : OpFields) (server : Nat → ResponseBody) (base k : Nat) :
    snapFields f0 server base (k + 1)
      = snapFields (from_json (server base) none) server (base + 1) k := by
  cases k with
  | zero => rfl
  | succ n =>
    have hidx : base + (n + 1) = base + 1 + n := by omega
    simp [snapFields, hidx]

lemma waitAux_zero (server : Nat → ResponseBody) (times : Nat → ℚ)
    (timeout : Option ℚ) (h : Heap) (r sleeps polls : Nat) :
    Operation.waitAux server times timeout 0 h r sleeps polls
      = ⟨.fuelOut r, h, sleeps, polls⟩ := rfl

lemma waitAux_guard_false {times : Nat → ℚ} {timeout : Option ℚ} {polls : Nat}
    (server : Nat → ResponseBody) (n : Nat) (h : Heap) (r sleeps : Nat)
    (hg : ¬ guardHolds times timeout polls = true) :
    Operation.waitAux server times timeout (n + 1) h r sleeps polls
      = ⟨.timedOut timeout, h, sleeps, polls⟩ := by
  simp [Operation.waitAux, hg]

lemma waitAux_unresolved_step {times : Nat → ℚ} {timeout : Option ℚ}
    {h : Heap} {r polls : Nat} (server : Nat → ResponseBody) (n sleeps : Nat)
    (hg : guardHolds times timeout polls = true)
    (h1 : stateAt h r ∈ unresolvedStates) :
    Operation.waitAux server times timeout (n + 1) h r sleeps polls
      = Operation.waitAux server times timeout n
          (h ++ [from_json (server polls) none]) h.length (sleeps + 1) (polls + 1) := by
  simp [Operation.waitAux, hg, h1, Operation.poll]

lemma waitAux_terminal {times : Nat → ℚ} {timeout : Option ℚ}
    {h : Heap} {r polls : Nat} (server : Nat → ResponseBody) (n sleeps : Nat)
    (hg : guardHolds times timeout polls = true)
    (h2 : stateAt h r ∈ terminalStates) :
    Operation.waitAux server times timeout (n + 1) h r sleeps polls
      = ⟨.returned r, h, sleeps, polls⟩ := by
  have h1 := terminal_not_unresolved h2
  simp [Operation.waitAux, hg, h1, h2]

lemma waitAux_unknown_step {times : Nat → ℚ} {timeout : Option ℚ}
    {h : Heap} {r polls : Nat} (server : Nat → ResponseBody) (n sleeps : Nat)
    (hg : guardHolds times timeout polls = true)
    (h1 : stateAt h r ∉ unresolvedStates) (h2 : stateAt h r ∉ terminalStates) :
    Operation.waitAux server times timeout (n + 1) h r sleeps polls
      = Operation.waitAux server times timeout n
          (h ++ [from_json (server polls) none]) h.length sleeps (polls + 1) := by
  simp [Operation.waitAux, hg, h1, h2, Operation.poll]

lemma waitAux_heap_extends (server : Nat → ResponseBody) (times : Nat → ℚ)
    (timeout : Option ℚ) :
    ∀ (fuel : Nat) (h : Heap) (r sleeps polls : Nat),
      ∃ h2, (Operation.waitAux server times timeout fuel h r sleeps polls).heap
        = h ++ h2 := by
  intro fuel
  induction fuel with
  | zero =>
    intro h r sleeps polls
    exact ⟨[], by simp [waitAux_zero]⟩
  | succ n ih =>
    intro h r sleeps polls
    by_cases hg : guardHolds times timeout polls = true
    · by_cases h1 : stateAt h r ∈ unresolvedStates
      · obtain ⟨h2, hh2⟩ :=
          ih (h ++ [from_json (server polls) none]) h.length (sleeps + 1) (polls + 1)
        refine ⟨[from_json (server polls) none] ++ h2, ?_⟩
        rw [waitAux_unresolved_step server n sleeps hg h1, hh2, List.append_assoc]
      · by_cases h2 : stateAt h r ∈ terminalStates
        · exact ⟨[], by rw [waitAux_terminal server n sleeps hg h2]; simp⟩
        · obtain ⟨h3, hh3⟩ :=
            ih (h ++ [from_json (server polls) none]) h.length sleeps (polls + 1)
          refine ⟨[from_json (server polls) none] ++ h3, ?_⟩
          rw [waitAux_unknown_step server n sleeps hg h1 h2, hh3, List.append_assoc]
    · exact ⟨[], by rw [waitAux_guard_false server n h r sleeps hg]; simp⟩

/-- Claim C6: no instance method mutates the receiver.  For every object
`r2` already on the heap (the receiver in particular), its record of
observable fields — type, description, status, hence state, and api_path —
is unchanged by a `poll` call and by a whole `wait` run on any receiver
`r`; fresher views appear only as newly allocated objects. -/
theorem poll_wait_no_mutation (h : Heap) (r r2 : Nat) (hr2 : r2 < h.length)
    (body : ResponseBody) (server : Nat → ResponseBody) (times : Nat → ℚ)
    (interval : ℚ) (timeout : Option ℚ) (fuel : Nat) :
    (Operation.poll h r body).1.getD r2 default = h.getD r2 default
      ∧ (Operation.wait h r server times interval timeout fuel).heap.getD r2 default
        = h.getD r2 default := by
  constructor
  · exact List.getD_append h [from_json body none] default r2 hr2
  · obtain ⟨h2, hh2⟩ := waitAux_heap_extends server times timeout fuel h r 0 0
    rw [Operation.wait, hh2]
    exact List.getD_append h h2 default r2 hr2

theorem poll_wait_no_mutation_witness :
    0 < ([opPending] : Heap).length
      ∧ ((Operation.poll [opPending] 0 bodySucceeded).1.getD 0 default
            = ([opPending] : Heap).getD 0 default
          ∧ (Operation.wait [opPending] 0 serverSucceeded clockZero 3 none 3).heap.getD 0 default
            = ([opPending] : Heap).getD 0 default) :=
  ⟨by decide,
    poll_wait_no_mutation [opPending] 0 0 (by decide) bodySucceeded
      serverSucceeded clockZero 3 none 3⟩

/-- Claim C7: `succeeded()` is true exactly when the state is SUCCEEDED,
and is false at each of the four other enumerated states. -/
theorem succeeded_iff_state (f : OpFields) :
    (Operation.succeeded f = true ↔ Operation.state f = "SUCCEEDED")
      ∧ ∀ st, st ∈ ["PENDING", "RUNNING", "CANCELED", "FAILED"] →
          Operation.state f = st → Operation.succeeded f = false := by
  constructor
  · simp [Operation.succeeded]
  · intro st hst hf
    have hne : st ≠ "SUCCEEDED" := by fin_cases hst <;> decide
    simp [Operation.succeeded, hf, hne]

theorem succeeded_iff_state_witness :
    Operation.state opPending = "PENDING" ∧ Operation.succeeded opPending = false :=
  ⟨rfl, (succeeded_iff_state opPending).2 _ (by decide) rfl⟩

/-- Claim C8: `apply_options` with `asynchronous=True` returns the receiver
itself on an unchanged heap with zero sleeps and zero polls, and with
`asynchronous=False` it returns exactly the result of `wait` with the same
options on the same receiver. -/
theorem apply_options_spec (h : Heap) (r : Nat) (server : Nat → ResponseBody)
    (times : Nat → ℚ) (interval : ℚ) (timeout : Option ℚ) (fuel : Nat) :
    Operation.apply_options h r true server times interval timeout fuel
        = ⟨.returned r, h, 0, 0⟩
      ∧ Operation.apply_options h r false server times interval timeout fuel
        = Operation.wait h r server times interval timeout fuel := by
  exact ⟨rfl, rfl⟩

/-- Claim C10: the object `poll` returns is built by `from_json` with
`api_path` left at its default `None`; its `api_path` is what the decoding
layer derives from the response body alone, whatever the receiver's stored
handle was. -/
theorem poll_api_path_from_body (h : Heap) (r : Nat) (body : ResponseBody) :
    ((Operation.poll h r body).1.getD (Operation.poll h r body).2 default).api_path
      = body.derived_api_path := by
  show ((h ++ [from_json body none]).getD h.length default).api_path = _
  rw [getD_concat_self]
  rfl

/-- Claim C5: on a receiver whose state is already terminal, provided the
guard passes at the first check (so in particular with the default
`timeout_seconds=None`), `wait` returns the receiver itself on the very
first iteration, with zero sleeps, zero polls and an unchanged heap; and
when the server still reports the same state, the returned snapshot has
the same state an equivalent immediate `poll()` result would report. -/
theorem wait_already_terminal (h : Heap) (r : Nat) (server : Nat → ResponseBody)
    (times : Nat → ℚ) (interval : ℚ) (timeout : Option ℚ) (fuel : Nat)
    (hfuel : 0 < fuel) (hterm : stateAt h r ∈ terminalStates)
    (hguard : guardHolds times timeout 0 = true)
    (hsrv : Operation.state (from_json (server 0) none) = stateAt h r) :
    Operation.wait h r server times interval timeout fuel = ⟨.returned r, h, 0, 0⟩
      ∧ stateAt h r = Operation.state (from_json (server 0) none) := by
  obtain ⟨n, rfl⟩ : ∃ n, fuel = n + 1 := ⟨fuel - 1, by omega⟩
  refine ⟨?_, hsrv.symm⟩
  rw [Operation.wait]
  exact waitAux_terminal server n 0 hguard hterm

theorem wait_already_terminal_witness :
    stateAt [opSucceeded] 0 ∈ terminalStates
      ∧ (Operation.wait [opSucceeded] 0 serverSucceeded clockZero 3 none 1
            = ⟨.returned 0, [opSucceeded], 0, 0⟩
          ∧ stateAt [opSucceeded] 0
            = Operation.state (from_json (serverSucceeded 0) none)) :=
  ⟨by decide,
    wait_already_terminal [opSucceeded] 0 serverSucceeded clockZero 3 none 1
      (by decide) (by decide) rfl (by decide)⟩

/-- Claim C9: with any `timeout_seconds` that is at most zero, the guard
`now() - started < timeout_seconds` already fails at the first check (the
elapsed clock being nonnegative), so `wait` raises TimeoutError at once
with zero sleeps and zero polls — for every receiver, hence even one whose
state is already terminal, since the elapsed-time test precedes the state
check. -/
theorem wait_nonpositive_timeout (h : Heap) (r : Nat) (server : Nat → ResponseBody)
    (times : Nat → ℚ) (interval : ℚ) (t : ℚ) (fuel : Nat)
    (ht : t ≤ 0) (htimes : 0 ≤ times 0) (hfuel : 0 < fuel) :
    Operation.wait h r server times interval (some t) fuel
      = ⟨.timedOut (some t), h, 0, 0⟩ := by
  obtain ⟨n, rfl⟩ : ∃ n, fuel = n + 1 := ⟨fuel - 1, by omega⟩
  have hg : ¬ guardHolds times (some t) 0 = true := by
    simp only [guardHolds, decide_eq_true_eq, not_lt]
    linarith
  rw [Operation.wait]
  exact waitAux_guard_false server n h r 0 hg

theorem wait_nonpositive_timeout_witness :
    (0 : ℚ) ≤ 0 ∧ stateAt [opSucceeded] 0 ∈ terminalStates
      ∧ Operation.wait [opSucceeded] 0 serverSucceeded clockZero 3 (some 0) 1
        = ⟨.timedOut (some 0), [opSucceeded], 0, 0⟩ :=
  ⟨le_refl 0, by decide,
    wait_nonpositive_timeout [opSucceeded] 0 serverSucceeded clockZero 3 0 1
      (le_refl 0) (le_refl 0) (by decide)⟩

lemma waitAux_timedOut_payload (server : Nat → ResponseBody) (times : Nat → ℚ)
    (timeout : Option ℚ) :
    ∀ (fuel : Nat) (h : Heap) (r sleeps polls : Nat) (q : Option ℚ),
      (Operation.waitAux server times timeout fuel h r sleeps polls).outcome
          = .timedOut q → q = timeout := by
  intro fuel
  induction fuel with
  | zero =>
    intro h r s p q hq
    simp [waitAux_zero] at hq
  | succ n ih =>
    intro h r s p q hq
    by_cases hg : guardHolds times timeout p = true
    · by_cases h1 : stateAt h r ∈ unresolvedStates
      · rw [waitAux_unresolved_step server n s hg h1] at hq
        exact ih _ _ _ _ _ hq
      · by_cases h2 : stateAt h r ∈ terminalStates
        · rw [waitAux_terminal server n s hg h2] at hq
          simp at hq
        · rw [waitAux_unknown_step server n s hg h1 h2] at hq
          exact ih _ _ _ _ _ hq
    · rw [waitAux_guard_false server n h r s hg] at hq
      simp at hq
      exact hq.symm

/-- Claim C3 counterexample: two `wait` runs that differ only in the
elapsed wall clock at the first guard check (5 seconds versus 7 seconds,
both past the configured 1-second timeout) raise identical TimeoutError
values, so the raised error cannot carry the elapsed time — refuting that
it carries both the elapsed time and the configured timeout. -/
theorem timeout_error_elapsed_counterexample :
    (Operation.wait [opPending] 0 serverPending clockFive 3 (some 1) 1).outcome
        = (Operation.wait [opPending] 0 serverPending clockSeven 3 (some 1) 1).outcome
      ∧ (Operation.wait [opPending] 0 serverPending clockFive 3 (some 1) 1).outcome
        = .timedOut (some 1) :=
  ⟨by decide, by decide⟩

/-- Claim C3 amended: when `wait` fails with TimeoutError, the raised error
carries exactly the configured `timeout_seconds` value — the only value
interpolated into its message — and not the elapsed time. -/
theorem timeout_error_payload (h : Heap) (r : Nat) (server : Nat → ResponseBody)
    (times : Nat → ℚ) (interval : ℚ) (timeout : Option ℚ) (fuel : Nat)
    (q : Option ℚ)
    (hq : (Operation.wait h r server times interval timeout fuel).outcome
      = .timedOut q) :
    q = timeout :=
  waitAux_timedOut_payload server times timeout fuel h r 0 0 q hq

theorem timeout_error_payload_witness :
    (Operation.wait [opPending] 0 serverPending clockFive 3 (some 1) 1).outcome
        = .timedOut (some 1)
      ∧ (some 1 : Option ℚ) = some 1 :=
  ⟨by decide,
    timeout_error_payload [opPending] 0 serverPending clockFive 3 (some 1) 1
      (some 1) (by decide)⟩

lemma waitAux_unknown_forever (server : Nat → ResponseBody) (times : Nat → ℚ)
    (hsrv : ∀ n, Operation.state (from_json (server n) none) ∉ unresolvedStates
        ∧ Operation.state (from_json (server n) none) ∉ terminalStates) :
    ∀ (fuel : Nat) (h : Heap) (r sleeps polls : Nat),
      stateAt h r ∉ unresolvedStates → stateAt h r ∉ terminalStates →
      ∃ r2 h2, Operation.waitAux server times none fuel h r sleeps polls
        = ⟨.fuelOut r2, h2, sleeps, polls + fuel⟩ := by
  intro fuel
  induction fuel with
  | zero =>
    intro h r s p h1 h2
    exact ⟨r, h, by simp [waitAux_zero]⟩
  | succ n ih =>
    intro h r s p h1 h2
    have hg : guardHolds times none p = true := rfl
    rw [waitAux_unknown_step server n s hg h1 h2]
    have hst : stateAt (h ++ [from_json (server p) none]) h.length
        = Operation.state (from_json (server p) none) := stateAt_concat h _
    obtain ⟨r2, h3, heq⟩ :=
      ih (h ++ [from_json (server p) none]) h.length s (p + 1)
        (by rw [hst]; exact (hsrv p).1) (by rw [hst]; exact (hsrv p).2)
    refine ⟨r2, h3, ?_⟩
    rw [heq]
    have hpn : p + 1 + n = p + (n + 1) := by omega
    rw [hpn]

/-- Claim C4 counterexample: starting from a state string outside the five
enumerated names with `timeout_seconds=None`, the loop does execute
`op = op.poll()` on every iteration — after 5 iterations it has polled 5
times (and slept 0 times) and is still looping — refuting the claim that
no polls are performed during the loop. -/
theorem wait_unknown_state_counterexample :
    (Operation.wait [opBogus] 0 serverBogus clockZero 3 none 5).polls = 5
      ∧ (Operation.wait [opBogus] 0 serverBogus clockZero 3 none 5).sleeps = 0
      ∧ (Operation.wait [opBogus] 0 serverBogus clockZero 3 none 5).outcome
        = .fuelOut 5 :=
  ⟨by decide, by decide, by decide⟩

/-- Claim C4 amended: with `timeout_seconds=None`, a receiver whose state
string is outside the five enumerated names makes `wait` loop without ever
sleeping or returning, but the loop polls once per iteration: when every
polled snapshot is also outside the enumeration, the run is still looping
at every fuel bound, with zero sleeps and exactly one poll per iteration. -/
theorem wait_unknown_state_loops (h : Heap) (r : Nat) (server : Nat → ResponseBody)
    (times : Nat → ℚ) (interval : ℚ) (fuel : Nat)
    (h1 : stateAt h r ∉ unresolvedStates) (h2 : stateAt h r ∉ terminalStates)
    (hsrv : ∀ n, Operation.state (from_json (server n) none) ∉ unresolvedStates
        ∧ Operation.state (from_json (server n) none) ∉ terminalStates) :
    ∃ r2 h3, Operation.wait h r server times interval none fuel
      = ⟨.fuelOut r2, h3, 0, fuel⟩ := by
  have := waitAux_unknown_forever server times hsrv fuel h r 0 0 h1 h2
  simpa [Operation.wait] using this

theorem wait_unknown_state_loops_witness :
    (Operation.wait [opBogus] 0 serverBogus clockZero 3 none 2).sleeps = 0
      ∧ (Operation.wait [opBogus] 0 serverBogus clockZero 3 none 2).polls = 2 := by
  obtain ⟨r2, h3, heq⟩ :=
    wait_unknown_state_loops [opBogus] 0 serverBogus clockZero 3 2
      (by decide) (by decide)
      (fun n =>
        ⟨by show Operation.state (from_json bodyBogus none) ∉ unresolvedStates
            decide,
          by show Operation.state (from_json bodyBogus none) ∉ terminalStates
             decide⟩)
  rw [heq]
  exact ⟨rfl, rfl⟩

lemma waitAux_first_terminal (server : Nat → ResponseBody) (times : Nat → ℚ) :
    ∀ (N : Nat), ∀ (fuel : Nat), N < fuel →
      ∀ (h : Heap) (r sleeps polls : Nat),
      (∀ k < N, Operation.state (snapFields (h.getD r default) server polls k)
          ∈ unresolvedStates) →
      Operation.state (snapFields (h.getD r default) server polls N)
          ∈ terminalStates →
      ∃ r2 h2,
        Operation.waitAux server times none fuel h r sleeps polls
            = ⟨.returned r2, h2, sleeps + N, polls + N⟩
          ∧ h2.getD r2 default = snapFields (h.getD r default) server polls N := by
  intro N
  induction N with
  | zero =>
    intro fuel hfuel h r sleeps polls _ hterm
    obtain ⟨n, rfl⟩ : ∃ n, fuel = n + 1 := ⟨fuel - 1, by omega⟩
    have hterm0 : stateAt h r ∈ terminalStates := hterm
    have hg : guardHolds times none polls = true := rfl
    refine ⟨r, h, ?_, rfl⟩
    rw [waitAux_terminal server n sleeps hg hterm0]
    simp
  | succ N ih =>
    intro fuel hfuel h r sleeps polls hpre hterm
    obtain ⟨n, rfl⟩ : ∃ n, fuel = n + 1 := ⟨fuel - 1, by omega⟩
    have h1 : stateAt h r ∈ unresolvedStates := hpre 0 (Nat.succ_pos N)
    have hg : guardHolds times none polls = true := rfl
    rw [waitAux_unresolved_step server n sleeps hg h1]
    have hgetD : (h ++ [from_json (server polls) none]).getD h.length default
        = from_json (server polls) none := getD_concat_self h _
    have hpre2 : ∀ k < N, Operation.state
        (snapFields ((h ++ [from_json (server polls) none]).getD h.length default)
          server (polls + 1) k) ∈ unresolvedStates := by
      intro k hk
      rw [hgetD, ← snapFields_shift (h.getD r default) server polls k]
      exact hpre (k + 1) (by omega)
    have hterm2 : Operation.state
        (snapFields ((h ++ [from_json (server polls) none]).getD h.length default)
          server (polls + 1) N) ∈ terminalStates := by
      rw [hgetD, ← snapFields_shift (h.getD r default) server polls N]
      exact hterm
    obtain ⟨r2, h2, heq, hfield⟩ :=
      ih n (by omega) (h ++ [from_json (server polls) none]) h.length
        (sleeps + 1) (polls + 1) hpre2 hterm2
    refine ⟨r2, h2, ?_, ?_⟩
    · rw [heq]
      have e1 : sleeps + 1 + N = sleeps + (N + 1) := by omega
      have e2 : polls + 1 + N = polls + (N + 1) := by omega
      rw [e1, e2]
    · rw [hfield, hgetD, ← snapFields_shift (h.getD r default) server polls N]

/-- Claim C1: when the sequence of snapshots produced by successive polls —
all unresolved until index N, terminal at index N — is what the loop sees,
`wait` with `timeout_seconds=None` returns the first snapshot observed in a
terminal state: the returned object is that snapshot, its state is that
terminal state, and the run performed exactly N polls and N sleeps, so
neither a further sleep nor a further poll happened after the
observation. -/
theorem wait_returns_first_terminal (h : Heap) (r : Nat)
    (server : Nat → ResponseBody) (times : Nat → ℚ) (interval : ℚ)
    (N fuel : Nat) (hfuel : N < fuel)
    (hpre : ∀ k < N, Operation.state (snapFields (h.getD r default) server 0 k)
        ∈ unresolvedStates)
    (hterm : Operation.state (snapFields (h.getD r default) server 0 N)
        ∈ terminalStates) :
    ∃ r2 h2,
      Operation.wait h r server times interval none fuel
          = ⟨.returned r2, h2, N, N⟩
        ∧ h2.getD r2 default = snapFields (h.getD r default) server 0 N
        ∧ Operation.state (h2.getD r2 default) ∈ terminalStates := by
  obtain ⟨r2, h2, heq, hfield⟩ :=
    waitAux_first_terminal server times N fuel hfuel h r 0 0 hpre hterm
  refine ⟨r2, h2, ?_, hfield, ?_⟩
  · rw [Operation.wait, heq]
    simp
  · rw [hfield]
    exact hterm

theorem wait_returns_first_terminal_witness :
    (Operation.wait [opPending] 0 serverRunThenSucceed clockZero 3 none 3).sleeps = 2
      ∧ (Operation.wait [opPending] 0 serverRunThenSucceed clockZero 3 none 3).polls
        = 2 := by
  obtain ⟨r2, h2, heq, hfield, hstate⟩ :=
    wait_returns_first_terminal [opPending] 0 serverRunThenSucceed clockZero 3 2 3
      (by omega) (by decide) (by decide)
  rw [heq]
  exact ⟨rfl, rfl⟩

lemma timeoutHit_shift (server : Nat → ResponseBody) (times : Nat → ℚ)
    (timeout : Option ℚ) (f0 : OpFields) (base : Nat)
    (hg : guardHolds times timeout base = true)
    (hnt : Operation.state f0 ∉ terminalStates) (k : Nat) :
    timeoutHit server times timeout (from_json (server base) none) (base + 1) k
      ↔ timeoutHit server times timeout f0 base (k + 1) := by
  constructor
  · rintro ⟨hfail, hall⟩
    refine ⟨?_, ?_⟩
    · have e : base + (k + 1) = base + 1 + k := by omega
      rw [e]
      exact hfail
    · intro j hj
      cases j with
      | zero => exact ⟨by rw [Nat.add_zero]; exact hg, hnt⟩
      | succ i =>
        have h2 := hall i (by omega)
        refine ⟨?_, ?_⟩
        · have e : base + (i + 1) = base + 1 + i := by omega
          rw [e]
          exact h2.1
        · rw [snapFields_shift f0 server base i]
          exact h2.2
  · rintro ⟨hfail, hall⟩
    refine ⟨?_, ?_⟩
    · have e : base + 1 + k = base + (k + 1) := by omega
      rw [e]
      exact hfail
    · intro j hj
      have h2 := hall (j + 1) (by omega)
      refine ⟨?_, ?_⟩
      · have e : base + 1 + j = base + (j + 1) := by omega
        rw [e]
        exact h2.1
      · rw [← snapFields_shift f0 server base j]
        exact h2.2

lemma exists_timeoutHit_shift (server : Nat → ResponseBody) (times : Nat → ℚ)
    (timeout : Option ℚ) (f0 : OpFields) (base n : Nat)
    (hg : guardHolds times timeout base = true)
    (hnt : Operation.state f0 ∉ terminalStates) :
    (∃ k, k < n + 1 ∧ timeoutHit server times timeout f0 base k)
      ↔ ∃ k, k < n ∧ timeoutHit server times timeout
          (from_json (server base) none) (base + 1) k := by
  constructor
  · rintro ⟨k, hk, hhit⟩
    cases k with
    | zero =>
      exfalso
      have hfail := hhit.1
      rw [Nat.add_zero] at hfail
      simp [hg] at hfail
    | succ k =>
      exact ⟨k, by omega,
        (timeoutHit_shift server times timeout f0 base hg hnt k).mpr hhit⟩
  · rintro ⟨k, hk, hhit⟩
    exact ⟨k + 1, by omega,
      (timeoutHit_shift server times timeout f0 base hg hnt k).mp hhit⟩

lemma waitAux_timedOut_iff (server : Nat → ResponseBody) (times : Nat → ℚ)
    (timeout : Option ℚ) :
    ∀ (fuel : Nat) (h : Heap) (r sleeps polls : Nat),
      (Operation.waitAux server times timeout fuel h r sleeps polls).outcome
          = .timedOut timeout
        ↔ ∃ k, k < fuel
            ∧ timeoutHit server times timeout (h.getD r default) polls k := by
  intro fuel
  induction fuel with
  | zero =>
    intro h r s p
    constructor
    · intro hq
      simp [waitAux_zero] at hq
    · rintro ⟨k, hk, _⟩
      omega
  | succ n ih =>
    intro h r s p
    by_cases hg : guardHolds times timeout p = true
    · by_cases h2 : stateAt h r ∈ terminalStates
      · rw [waitAux_terminal server n s hg h2]
        constructor
        · intro hq
          simp at hq
        · rintro ⟨k, hk, hhit⟩
          exfalso
          cases k with
          | zero =>
            have hfail := hhit.1
            rw [Nat.add_zero] at hfail
            simp [hg] at hfail
          | succ k =>
            have h0 := hhit.2 0 (Nat.succ_pos k)
            exact h0.2 h2
      · by_cases h1 : stateAt h r ∈ unresolvedStates
        · rw [waitAux_unresolved_step server n s hg h1,
            ih (h ++ [from_json (server p) none]) h.length (s + 1) (p + 1),
            getD_concat_self]
          exact (exists_timeoutHit_shift server times timeout
            (h.getD r default) p n hg h2).symm
        · rw [waitAux_unknown_step server n s hg h1 h2,
            ih (h ++ [from_json (server p) none]) h.length s (p + 1),
            getD_concat_self]
          exact (exists_timeoutHit_shift server times timeout
            (h.getD r default) p n hg h2).symm
    · rw [waitAux_guard_false server n h r s hg]
      constructor
      · intro _
        have hgf : guardHolds times timeout p = false := by
          simpa using hg
        refine ⟨0, Nat.succ_pos n, ?_, ?_⟩
        · rw [Nat.add_zero]
          exact hgf
        · intro j hj
          exact absurd hj (Nat.not_lt_zero j)
      · intro _
        rfl

/-- Claim C2: `wait` raises TimeoutError exactly when `timeout_seconds` is
some value t and, at some guard evaluation within the run, the elapsed wall
clock has reached t while every earlier iteration was still in time and had
not observed a terminal snapshot.  In particular with `timeout_seconds=None`
the right-hand side is unsatisfiable, so `wait` never raises TimeoutError,
however long it loops. -/
theorem wait_timeout_iff (h : Heap) (r : Nat) (server : Nat → ResponseBody)
    (times : Nat → ℚ) (interval : ℚ) (timeout : Option ℚ) (fuel : Nat) :
    (∃ q, (Operation.wait h r server times interval timeout fuel).outcome
        = .timedOut q)
      ↔ ∃ t, timeout = some t
          ∧ ∃ k, k < fuel ∧ t ≤ times k
            ∧ ∀ j < k, times j < t
                ∧ Operation.state (snapFields (h.getD r default) server 0 j)
                    ∉ terminalStates := by
  constructor
  · rintro ⟨q, hq⟩
    simp only [Operation.wait] at hq
    have hq2 : q = timeout := waitAux_timedOut_payload server times timeout
      fuel h r 0 0 q hq
    subst hq2
    obtain ⟨k, hk, hfail, hall⟩ :=
      (waitAux_timedOut_iff server times q fuel h r 0 0).mp hq
    cases hofq : q with
    | none =>
      subst hofq
      simp [guardHolds] at hfail
    | some t =>
      subst hofq
      refine ⟨t, rfl, k, hk, ?_, ?_⟩
      · have h3 : ¬ times (0 + k) < t := by
          simpa [guardHolds] using hfail
        rw [Nat.zero_add] at h3
        exact not_lt.mp h3
      · intro j hj
        have h4 := hall j hj
        have h5 : times (0 + j) < t := by
          simpa [guardHolds] using h4.1
        rw [Nat.zero_add] at h5
        exact ⟨h5, h4.2⟩
  · rintro ⟨t, rfl, k, hk, hle, hall⟩
    refine ⟨some t, ?_⟩
    simp only [Operation.wait]
    apply (waitAux_timedOut_iff server times (some t) fuel h r 0 0).mpr
    refine ⟨k, hk, ?_, ?_⟩
    · show guardHolds times (some t) (0 + k) = false
      rw [Nat.zero_add]
      simp only [guardHolds, decide_eq_false_iff_not]
      exact not_lt.mpr hle
    · intro j hj
      refine ⟨?_, (hall j hj).2⟩
      show guardHolds times (some t) (0 + j) = true
      rw [Nat.zero_add]
      simp only [guardHolds, decide_eq_true_eq]
      exact (hall j hj).1

end UnifyOperation
